import Mathlib

/-!
Shallow embedding of the app-update-checker repository: the domain model
(models.py), the persistent-storage helpers and version utilities
(utils.py), and the batch-check orchestration (service.py), together with
theorems settling the specification claims about them.
-/

namespace AppChecker

/-- Embeds AppSource (models.py): the four string-valued source variants. -/
inductive AppSource where
  | winget
  | github
  | custom
  | homebrew
deriving DecidableEq, Repr

/-- Embeds the .value string of each AppSource member. -/
def AppSource.value : AppSource → String
  | .winget => "winget"
  | .github => "github"
  | .custom => "custom"
  | .homebrew => "homebrew"

/-- Embeds the AppSource(raw) enum lookup: the variant whose value equals the
given string, if any (a failed lookup raises ValueError in Python, which
from_dict converts to the custom default). -/
def AppSource.fromValue (s : String) : Option AppSource :=
  if s = "winget" then some .winget
  else if s = "github" then some .github
  else if s = "custom" then some .custom
  else if s = "homebrew" then some .homebrew
  else none

/-- Embeds AppStatus (models.py), all six variants including CHECKING. -/
inductive AppStatus where
  | ok
  | update_available
  | checking
  | error
  | ignored
  | unknown
deriving DecidableEq, Repr

/-- Embeds the App dataclass (models.py): all 15 fields.  An optional
string field holds none where Python holds None. -/
structure App where
  id : String := ""
  name : String := ""
  source : AppSource := .custom
  installed_version : Option String := none
  latest_version : Option String := none
  ignored : Bool := false
  last_checked : Option String := none
  last_error : Option String := none
  release_url : Option String := none
  added_at : Option String := none
  winget_id : Option String := none
  github_repo : Option String := none
  custom_url : Option String := none
  version_regex : Option String := none
  homebrew_formula : Option String := none
deriving DecidableEq, Repr

/-- Python truthiness of an Optional[str] value: None and the empty string
are falsy, every other string is truthy. -/
def pyTruthy : Option String → Bool
  | none => false
  | some s => if s = "" then false else true

/-- Embeds the App.status property (models.py), mirroring its early-return
chain; the last_error test is a Python truthiness test, the version tests
are literal None tests, the final comparison is plain string inequality. -/
def App.status (a : App) : AppStatus :=
  if a.ignored then .ignored
  else if pyTruthy a.last_error then .error
  else if a.latest_version = none then .unknown
  else if a.installed_version = none then .unknown
  else if a.latest_version ≠ a.installed_version then .update_available
  else .ok

/-- Status contribution of the two version fields alone: UNKNOWN when
latest is absent, UNKNOWN when installed is absent, UPDATE_AVAILABLE when
the two differ as plain strings, else OK. -/
def versionStatus : Option String → Option String → AppStatus
  | none, _ => .unknown
  | some _, none => .unknown
  | some lv, some iv => if lv = iv then .ok else .update_available

/-- The status derivation as the amended claim C3 states it: IGNORED when
ignored; else ERROR when last_error is present and non-empty; else the
version-field derivation (UNKNOWN / UPDATE_AVAILABLE / OK). -/
def statusSpec (a : App) : AppStatus :=
  match a.ignored, a.last_error, a.latest_version, a.installed_version with
  | true, _, _, _ => .ignored
  | false, some e, lv, iv => if e = "" then versionStatus lv iv else .error
  | false, none, lv, iv => versionStatus lv iv

/-- Concrete app whose last_error is present but empty while both version
fields hold equal strings. -/
def emptyErrorApp : App :=
  { id := "app-1", name := "demo", source := .custom,
    installed_version := some "1.0", latest_version := some "1.0",
    ignored := false, last_error := some "",
    added_at := some "2024-01-01T00:00:00" }

example : emptyErrorApp.status = AppStatus.ok := by decide

/-- ASCII approximation of the whitespace set removed by str.strip(). -/
def isPyWhitespace (c : Char) : Bool :=
  c = ' ' || c = '\t' || c = '\n' || c = '\r' || c = '\x0b' || c = '\x0c'

/-- Embeds str.strip(): drop whitespace from both ends. -/
def stripList (l : List Char) : List Char :=
  ((l.dropWhile isPyWhitespace).reverse.dropWhile isPyWhitespace).reverse

/-- Digit run in Python int() syntax after its first digit: digits with
singly interleaved underscores, accumulating the decimal value. -/
def pyDigitsAux (acc : Nat) : List Char → Option Nat
  | [] => some acc
  | '_' :: c :: rest =>
      if c.isDigit then pyDigitsAux (acc * 10 + (c.toNat - 48)) rest else none
  | ['_'] => none
  | c :: rest =>
      if c.isDigit then pyDigitsAux (acc * 10 + (c.toNat - 48)) rest else none

/-- Digit run in Python int() syntax: digit (["_"] digit)*. -/
def pyDigits : List Char → Option Nat
  | [] => none
  | c :: rest => if c.isDigit then pyDigitsAux (c.toNat - 48) rest else none

/-- Embeds Python int(str): optional surrounding whitespace, an optional
sign, then an underscore-interleaved digit run; any other shape raises
ValueError, modelled as none. -/
def pyInt (l : List Char) : Option Int :=
  match stripList l with
  | '+' :: rest => (pyDigits rest).map (fun n => (n : Int))
  | '-' :: rest => (pyDigits rest).map (fun n => -(n : Int))
  | cs => (pyDigits cs).map (fun n => (n : Int))

/-- Embeds str.split(sep) for a one-character separator: split at every
occurrence, keeping empty pieces (the empty string splits to one empty
piece). -/
def splitOnChar (sep : Char) : List Char → List (List Char)
  | [] => [[]]
  | c :: rest =>
    match splitOnChar sep rest with
    | [] => [[]]
    | g :: gs => if c = sep then [] :: g :: gs else (c :: g) :: gs

/-- Embeds the find-then-slice steps of parse_version: cut the string
before the first occurrence of the character when that occurrence is at a
positive index, keep it whole otherwise. -/
def truncAtChar (ch : Char) (l : List Char) : List Char :=
  match l.findIdx? (· = ch) with
  | some i => if 0 < i then l.take i else l
  | none => l

/-- The segment loop of parse_version: parse each dot-separated segment
with int(), stopping at the first segment that fails to parse. -/
def leadingInts : List (List Char) → List Int
  | [] => []
  | p :: ps =>
    match pyInt p with
    | some n => n :: leadingInts ps
    | none => []

/-- Embeds parse_version (utils.py): empty input gives (0,); otherwise trim
whitespace, drop one leading v or V (the lower().startswith test), truncate
at the first dash and then the first plus when not at position 0, split on
dots, take the leading run of int()-parsable segments, defaulting to (0,)
when that run is empty.  Tuples are modelled as integer lists. -/
def parse_version (version : String) : List Int :=
  if version = "" then [0]
  else
    let v := stripList version.data
    let v := match v with
      | c :: rest => if c = 'v' ∨ c = 'V' then rest else c :: rest
      | [] => []
    let v := truncAtChar '-' v
    let v := truncAtChar '+' v
    let parts := leadingInts (splitOnChar '.' v)
    if parts = [] then [0] else parts

/-- Embeds the Python tuple comparison p1 < p2 used by compare_versions:
elementwise, the first strictly smaller element decides, and a strict
prefix is smaller than its extensions. -/
def pyTupleLt : List Int → List Int → Bool
  | [], [] => false
  | [], _ :: _ => true
  | _ :: _, [] => false
  | a :: l1, b :: l2 =>
    if a < b then true else if b < a then false else pyTupleLt l1 l2

/-- Embeds compare_versions (utils.py): parse both strings and compare the
resulting integer tuples, returning -1, 0, or 1. -/
def compare_versions (v1 v2 : String) : Int :=
  if pyTupleLt (parse_version v1) (parse_version v2) then -1
  else if pyTupleLt (parse_version v2) (parse_version v1) then 1
  else 0

/-- Embeds is_update_available (utils.py): False when ignored, False when
either version field is Python-falsy (absent or empty), else whether the
numeric comparison puts installed strictly below latest. -/
def is_update_available (a : App) : Bool :=
  if a.ignored then false
  else
    match a.installed_version, a.latest_version with
    | some iv, some lv =>
      if iv = "" ∨ lv = "" then false
      else decide (compare_versions iv lv < 0)
    | _, _ => false

example : parse_version "v1.2.3-beta+001" = [1, 2, 3] := by decide
example : parse_version "2.0" = [2, 0] := by decide
example : parse_version "notaversion" = [0] := by decide
example : parse_version "" = [0] := by decide
example : parse_version "1.2" = [1, 2] := by decide
example : parse_version "1.2.0" = [1, 2, 0] := by decide
example : compare_versions "1.2" "1.2.0" = -1 := by decide

/-- A Python value as it appears in a to_dict/from_dict mapping: a string,
a boolean, or None.  A missing key behaves exactly like None through every
data.get(key) read in from_dict, so absence is folded into vNone. -/
inductive PyVal where
  | vNone
  | vStr (s : String)
  | vBool (b : Bool)
deriving DecidableEq, Repr

/-- The mapping App.to_dict produces, one entry per App field. -/
structure AppDict where
  id : PyVal := .vNone
  name : PyVal := .vNone
  source : PyVal := .vNone
  installed_version : PyVal := .vNone
  latest_version : PyVal := .vNone
  ignored : PyVal := .vNone
  last_checked : PyVal := .vNone
  last_error : PyVal := .vNone
  release_url : PyVal := .vNone
  added_at : PyVal := .vNone
  winget_id : PyVal := .vNone
  github_repo : PyVal := .vNone
  custom_url : PyVal := .vNone
  version_regex : PyVal := .vNone
  homebrew_formula : PyVal := .vNone
deriving DecidableEq, Repr

/-- Optional string to Python value. -/
def PyVal.ofOptStr : Option String → PyVal
  | none => .vNone
  | some s => .vStr s

/-- Embeds App.to_dict (models.py). -/
def App.to_dict (a : App) : AppDict :=
  { id := .vStr a.id,
    name := .vStr a.name,
    source := .vStr a.source.value,
    installed_version := .ofOptStr a.installed_version,
    latest_version := .ofOptStr a.latest_version,
    ignored := .vBool a.ignored,
    last_checked := .ofOptStr a.last_checked,
    last_error := .ofOptStr a.last_error,
    release_url := .ofOptStr a.release_url,
    added_at := .ofOptStr a.added_at,
    winget_id := .ofOptStr a.winget_id,
    github_repo := .ofOptStr a.github_repo,
    custom_url := .ofOptStr a.custom_url,
    version_regex := .ofOptStr a.version_regex,
    homebrew_formula := .ofOptStr a.homebrew_formula }

/-- Embeds the public dataclass constructor together with __post_init__: a
Python-falsy (blank) id is replaced by a freshly generated uuid4 string
and an absent added_at by the current timestamp; the two nondeterministic
values enter as the freshId and now parameters. -/
def App.init (freshId now : String) (id name : String) (source : AppSource)
    (installed_version latest_version : Option String) (ignored : Bool)
    (last_checked last_error release_url added_at winget_id github_repo
     custom_url version_regex homebrew_formula : Option String) : App :=
  { id := if id = "" then freshId else id,
    name, source, installed_version, latest_version, ignored,
    last_checked, last_error, release_url,
    added_at := match added_at with
      | none => some now
      | some t => some t,
    winget_id, github_repo, custom_url, version_regex, homebrew_formula }

/-- The _get_str helper of from_dict: keep a string value, coerce anything
else to None. -/
def getStr : PyVal → Option String
  | .vStr s => some s
  | _ => none

/-- The _get_bool helper of from_dict: keep a boolean value, coerce
anything else to the default. -/
def getBool (v : PyVal) (dflt : Bool) : Bool :=
  match v with
  | .vBool b => b
  | _ => dflt

/-- Python x or y for an optional string x and a string default y: the
string when present and truthy, the default otherwise. -/
def pyOrStr (x : Option String) (dflt : String) : String :=
  match x with
  | some s => if s = "" then dflt else s
  | none => dflt

/-- Embeds App.from_dict (models.py).  data.get("source", "custom") with a
missing key yields "custom", and AppSource("custom") is custom — the same
result the vNone branch produces, so absence needs no separate case.  The
two nondeterministic fallbacks (the uuid4 call inside from_dict itself and
the one inside __post_init__) both enter through freshId, and the
timestamp through now. -/
def App.from_dict (freshId now : String) (d : AppDict) : App :=
  let source := match d.source with
    | .vStr s => (AppSource.fromValue s).getD .custom
    | _ => .custom
  App.init freshId now
    (pyOrStr (getStr d.id) freshId)
    (pyOrStr (getStr d.name) "")
    source
    (getStr d.installed_version)
    (getStr d.latest_version)
    (getBool d.ignored false)
    (getStr d.last_checked)
    (getStr d.last_error)
    (getStr d.release_url)
    (getStr d.added_at)
    (getStr d.winget_id)
    (getStr d.github_repo)
    (getStr d.custom_url)
    (getStr d.version_regex)
    (getStr d.homebrew_formula)

/-- Content of a stored JSON file, as far as the storage helpers
distinguish it: a file that fails JSON parsing, or a well-formed document
carrying an app list and the last_updated stamp save_apps writes. -/
inductive FileData where
  | malformed
  | wellFormed (apps : List App) (last_updated : Option String)
deriving DecidableEq, Repr

/-- The slice of the file system the storage helpers touch: the primary
apps.json, its .bak sibling, and the temporary file save_apps writes. -/
structure FsState where
  primary : Option FileData := none
  backup : Option FileData := none
  temp : Option FileData := none
deriving DecidableEq, Repr

/-- The apps-file name (APPS_FILE in constants.py) standing for the path
load_apps embeds in its fatal error message. -/
def appsFilePath : String := "apps.json"

/-- Embeds _restore_backup (utils.py): no backup file means failure;
otherwise copy the backup over the primary, with copyOk standing for
whether the copy call itself succeeds (its OSError is caught and reported
as False). -/
def restoreBackup (copyOk : Bool) (s : FsState) : Bool × FsState :=
  match s.backup with
  | none => (false, s)
  | some b => if copyOk then (true, { s with primary := some b }) else (false, s)

/-- Outcome of one load_apps call: a returned app list, the RuntimeError
carrying the apps-file path, or no return within the given recursion
allowance. -/
inductive LoadOutcome where
  | ok (apps : List App)
  | corruptionError (path : String)
  | noReturn
deriving DecidableEq, Repr

/-- Embeds load_apps (utils.py) with explicit recursion fuel: a missing
primary file yields the empty list, a well-formed one its apps; a
malformed one triggers _restore_backup and, on success, a full recursive
retry, while a failed restore raises the RuntimeError naming the apps
file.  The third component counts _restore_backup invocations; noReturn
records that the recursion outran the fuel (the source recursion itself is
unbounded). -/
def load_apps (copyOk : Bool) : Nat → FsState → LoadOutcome × FsState × Nat
  | 0, s => (.noReturn, s, 0)
  | fuel + 1, s =>
    match s.primary with
    | none => (.ok [], s, 0)
    | some (.wellFormed apps _) => (.ok apps, s, 0)
    | some .malformed =>
      match restoreBackup copyOk s with
      | (true, s1) =>
        let r := load_apps copyOk fuel s1
        (r.1, r.2.1, r.2.2 + 1)
      | (false, s1) => (.corruptionError appsFilePath, s1, 1)

/-- How one save_apps call unfolds against the outside world: the write
and rename both succeed; the temp-file write raises an OSError; or the
process is interrupted after the write but before the rename. -/
inductive SaveEvent where
  | complete
  | writeFails
  | interruptedBeforeRename
deriving DecidableEq, Repr

/-- Outcome label of a save_apps call: normal return, a re-raised OSError,
or a process interruption. -/
inductive SaveOutcome where
  | done
  | raised
  | interrupted
deriving DecidableEq, Repr

/-- Embeds save_apps (utils.py): _create_backup first copies the primary
over the backup when the primary exists (best effort, backupOk), then the
document {apps, last_updated := now} goes to the temp file, which is
renamed over the primary.  On writeFails the partially written temp file
(modelled malformed while it exists) is deleted and the error re-raised;
on interruption the state is left exactly as it stood before the rename. -/
def save_apps (backupOk : Bool) (apps : List App) (now : String)
    (ev : SaveEvent) (s : FsState) : SaveOutcome × FsState :=
  let s1 := match s.primary with
    | some p => if backupOk then { s with backup := some p } else s
    | none => s
  match ev with
  | .complete =>
    (.done, { s1 with primary := some (.wellFormed apps (some now)), temp := none })
  | .writeFails =>
    (.raised, { s1 with temp := none })
  | .interruptedBeforeRename =>
    (.interrupted, { s1 with temp := some (.wellFormed apps (some now)) })

/-- Embeds the decision core of add_app (utils.py), acting on the loaded
list: the list is scanned for an entry with the same id; a hit returns the
list unchanged (log and no-op, no save), otherwise the app is appended and
the result saved. -/
def add_app (apps : List App) (app : App) : List App :=
  if apps.any (fun e => decide (e.id = app.id)) then apps else apps ++ [app]

/-- Embeds the check result record UpdateInfo (models.py). -/
structure UpdateInfo where
  latest_version : Option String := none
  release_url : Option String := none
  error : Option String := none
  installed_version : Option String := none
deriving DecidableEq, Repr

/-- The task list check_all_apps builds: enumerate(apps) filtered to the
non-ignored entries, each task keeping its enumeration index into the full
input list. -/
def tasksOf (apps : List App) : List (Nat × App) :=
  apps.enum.filter (fun p => !p.2.ignored)

/-- Embeds check_all_apps (service.py) up to the per-app check itself,
which enters as the function chk (the awaited check_app result for each
app): asyncio.gather returns the task results in task order, and an empty
task list short-circuits to the empty list. -/
def check_all_apps (chk : App → UpdateInfo) (apps : List App) :
    List (App × UpdateInfo) :=
  let tasks := (tasksOf apps).map (fun p => (p.2, chk p.2))
  if tasks.isEmpty then [] else tasks

/-- The argument tuple check_with_progress hands the progress callback for
the task at position k of the task list: the app, its result, the app's
enumeration index into the full input plus one, and the full input
length.  The tuple is fixed per task, independent of completion timing. -/
def callbackArgs (chk : App → UpdateInfo) (apps : List App) :
    List (App × UpdateInfo × Nat × Nat) :=
  (tasksOf apps).map (fun p => (p.2, chk p.2, p.1 + 1, apps.length))

/-- The sequence of callback invocations under a given completion order,
where order lists task positions in the order the tasks finish: each
finishing task fires the callback with its own argument tuple. -/
def callbackLog (chk : App → UpdateInfo) (apps : List App)
    (order : List Nat) : List (App × UpdateInfo × Nat × Nat) :=
  order.filterMap (fun k => (callbackArgs chk apps).get? k)

/-- Concrete app whose installed_version is a present-but-empty string and
whose latest_version is present. -/
def blankInstalledApp : App :=
  { id := "app-2", name := "demo2", source := .custom,
    installed_version := some "", latest_version := some "1",
    added_at := some "2024-01-01T00:00:00" }

/-- Concrete app with installed version 1.2 and latest version 1.2.0. -/
def prefixVersionApp : App :=
  { id := "app-3", name := "demo3", source := .custom,
    installed_version := some "1.2", latest_version := some "1.2.0",
    added_at := some "2024-01-01T00:00:00" }

/-- First app of the two-app batch used for the callback scenario. -/
def appA : App :=
  { id := "a", name := "A", source := .custom, added_at := some "t" }

/-- Second app of the two-app batch used for the callback scenario. -/
def appB : App :=
  { id := "b", name := "B", source := .custom, added_at := some "t" }

/-- A fixed check result. -/
def constInfo : UpdateInfo := {}

/-- A check function returning the fixed result for every app. -/
def constCheck : App → UpdateInfo := fun _ => constInfo

/-- File-system state whose primary file and backup file are both
malformed. -/
def corruptBothState : FsState :=
  { primary := some .malformed, backup := some .malformed, temp := none }

/-- is_update_available as the amended claim C4 states it: false when the
app is ignored, false when either version field is absent or empty, and
otherwise true exactly when the numeric comparison puts installed strictly
below latest. -/
def updateAvailableSpec (a : App) : Bool :=
  match a.ignored, a.installed_version, a.latest_version with
  | false, some iv, some lv =>
    decide (iv ≠ "") && decide (lv ≠ "") && decide (compare_versions iv lv < 0)
  | _, _, _ => false

/-! ### Shared helper lemmas -/

theorem getStr_ofOptStr (x : Option String) : getStr (PyVal.ofOptStr x) = x := by
  cases x <;> rfl

theorem fromValue_value (s : AppSource) : AppSource.fromValue s.value = some s := by
  cases s <;> decide

/-! ### Claim theorems -/

/-- C10: the derived status property never returns CHECKING — although
CHECKING is a variant of AppStatus, the status derivation always lands in
one of the five other variants: IGNORED, ERROR, UNKNOWN,
UPDATE_AVAILABLE, or OK, so CHECKING is unreachable from stored app
fields. -/
theorem status_never_checking (a : App) :
    a.status = AppStatus.ignored ∨ a.status = AppStatus.error ∨
    a.status = AppStatus.unknown ∨ a.status = AppStatus.update_available ∨
    a.status = AppStatus.ok := by
  unfold App.status
  repeat' split
  all_goals simp

/-- C3 counterexample: emptyErrorApp is not ignored and its last_error is
present (the empty string), yet its status is not ERROR — refuting the
claim that a present last_error always yields ERROR. -/
theorem status_error_claim_fails_on_empty_error :
    emptyErrorApp.ignored = false ∧ emptyErrorApp.last_error = some "" ∧
    emptyErrorApp.last_error ≠ none ∧
    emptyErrorApp.status ≠ AppStatus.error := by
  decide

/-- C3 (amended): for every App the derived status follows the claimed
chain with the ERROR step reading last_error as present AND non-empty
(Python truthiness); the remaining steps are exactly as claimed — ignored
first, then the two absence checks on latest/installed, then plain string
inequality. -/
theorem status_eq_statusSpec (a : App) : a.status = statusSpec a := by
  obtain ⟨id, name, source, iv, lv, ign, lc, le, ru, aa, wi, gr, cu, vr, hf⟩ := a
  cases ign <;> cases le <;> cases lv <;> cases iv <;>
    simp [App.status, statusSpec, versionStatus, pyTruthy]

/-- C2: for every starting state, save_apps on a completed run leaves the
primary file holding the complete new document and no temp file; on an
I/O failure during the temp write it re-raises with the primary file
unchanged and the stray temp file deleted; interrupted before the rename
it leaves the primary file unchanged with only the temp file holding the
new document; and in every case the primary file holds either the
complete old content or the complete new document, never anything else. -/
theorem save_apps_atomic (backupOk : Bool) (apps : List App) (now : String)
    (s : FsState) :
    (save_apps backupOk apps now .complete s).1 = .done ∧
    (save_apps backupOk apps now .complete s).2.primary
      = some (.wellFormed apps (some now)) ∧
    (save_apps backupOk apps now .complete s).2.temp = none ∧
    (save_apps backupOk apps now .writeFails s).1 = .raised ∧
    (save_apps backupOk apps now .writeFails s).2.primary = s.primary ∧
    (save_apps backupOk apps now .writeFails s).2.temp = none ∧
    (save_apps backupOk apps now .interruptedBeforeRename s).1 = .interrupted ∧
    (save_apps backupOk apps now .interruptedBeforeRename s).2.primary = s.primary ∧
    (save_apps backupOk apps now .interruptedBeforeRename s).2.temp
      = some (.wellFormed apps (some now)) ∧
    ∀ ev : SaveEvent,
      (save_apps backupOk apps now ev s).2.primary = s.primary ∨
      (save_apps backupOk apps now ev s).2.primary
        = some (.wellFormed apps (some now)) := by
  obtain ⟨p, b, t⟩ := s
  cases p <;> cases backupOk <;>
    refine ⟨rfl, rfl, rfl, rfl, rfl, rfl, rfl, rfl, rfl, fun ev => ?_⟩ <;>
      cases ev <;> first | exact Or.inl rfl | exact Or.inr rfl

theorem filter_enumFrom_map {α β : Type} (p : α → Bool) (f : α → β) :
    ∀ (n : Nat) (l : List α),
      ((l.enumFrom n).filter (fun q => p q.2)).map (fun q => f q.2)
        = (l.filter p).map f := by
  intro n l
  induction l generalizing n with
  | nil => rfl
  | cons a l ih =>
    by_cases h : p a <;>
      simp [List.enumFrom, List.filter_cons, h, ih]

theorem if_isEmpty_eq_self {α : Type} (l : List α) :
    (if l.isEmpty then ([] : List α) else l) = l := by
  cases l <;> rfl

theorem length_filter_eq_countP {α : Type} (p : α → Bool) (l : List α) :
    (l.filter p).length = l.countP p := by
  induction l with
  | nil => rfl
  | cons a l ih =>
    by_cases h : p a <;> simp [List.filter_cons, List.countP_cons, h, ih]

/-- C6: for every app list and per-app check result, check_all_apps
returns exactly the non-ignored sublist, in order, paired with each app's
own check result — ignored apps appear in neither the processing nor the
result — so the result length equals the count of non-ignored apps. -/
theorem check_all_apps_non_ignored (chk : App → UpdateInfo) (apps : List App) :
    check_all_apps chk apps
      = (apps.filter (fun a => !a.ignored)).map (fun a => (a, chk a)) ∧
    (check_all_apps chk apps).length = apps.countP (fun a => !a.ignored) := by
  have key : check_all_apps chk apps
      = (apps.filter (fun a => !a.ignored)).map (fun a => (a, chk a)) := by
    unfold check_all_apps tasksOf
    rw [if_isEmpty_eq_self]
    exact filter_enumFrom_map (fun a => !a.ignored) (fun a => (a, chk a)) 0 apps
  refine ⟨key, ?_⟩
  rw [key, List.length_map, length_filter_eq_countP]

/-- C7 counterexample: in a two-app batch whose second task completes
first, the first callback invocation carries index 2 — the app's
enumeration position in the input — not completion index 1, refuting the
claim that the index reflects completion order. -/
theorem callback_index_not_completion_order :
    (callbackLog constCheck [appA, appB] [1, 0]).map (fun t => t.2.2.1)
      = [2, 1] ∧
    (callbackLog constCheck [appA, appB] [1, 0]).map (fun t => t.2.2.1)
      ≠ [1, 2] := by
  decide

theorem filterMap_get_range {α : Type} (l : List α) :
    (List.range l.length).filterMap (fun k => l.get? k) = l := by
  induction l with
  | nil => rfl
  | cons a l ih =>
    rw [List.length_cons, List.range_succ_eq_map, List.filterMap_cons]
    simp only [List.get?_cons_zero, List.filterMap_map]
    have : (fun k => (a :: l).get? k) ∘ Nat.succ = fun k => l.get? k := by
      funext k
      rfl
    rw [this, ih]

/-- C7 (amended): with a progress callback, the callback fires exactly
once per processed (non-ignored) app, as each task completes; every
invocation carries (app, result, the app's 1-based enumeration position
in the full input list, total = the full input length) — the index
reflects submission position, not completion order, and total counts
ignored apps too. -/
theorem callback_once_per_task (chk : App → UpdateInfo) (apps : List App)
    (order : List Nat)
    (h : order.Perm (List.range (callbackArgs chk apps).length)) :
    (callbackLog chk apps order).Perm
      ((tasksOf apps).map (fun p => (p.2, chk p.2, p.1 + 1, apps.length))) ∧
    (callbackLog chk apps order).length = (tasksOf apps).length := by
  have h1 : (callbackLog chk apps order).Perm (callbackArgs chk apps) := by
    unfold callbackLog
    have h2 := h.filterMap (fun k => (callbackArgs chk apps).get? k)
    rw [filterMap_get_range] at h2
    exact h2
  refine ⟨h1, ?_⟩
  rw [h1.length_eq]
  unfold callbackArgs
  rw [List.length_map]

/-- Witness for the amended C7 theorem: the two-app batch with the second
task finishing first. -/
theorem callback_once_per_task_witness :
    ([1, 0].Perm (List.range (callbackArgs constCheck [appA, appB]).length)) ∧
    (callbackLog constCheck [appA, appB] [1, 0]).Perm
      ((tasksOf [appA, appB]).map
        (fun p => (p.2, constCheck p.2, p.1 + 1, [appA, appB].length))) :=
  ⟨by decide,
   (callback_once_per_task constCheck [appA, appB] [1, 0] (by decide)).1⟩

theorem pyTupleLt_iff_lex (l1 : List Int) :
    ∀ l2, pyTupleLt l1 l2 = true ↔ List.Lex (· < ·) l1 l2 := by
  induction l1 with
  | nil =>
    intro l2
    cases l2 with
    | nil =>
      constructor
      · intro h
        simp [pyTupleLt] at h
      · intro h
        exact absurd h (List.Lex.not_nil_right _ _)
    | cons b l2 =>
      constructor
      · intro _
        exact List.Lex.nil
      · intro _
        rfl
  | cons a l1 ih =>
    intro l2
    cases l2 with
    | nil =>
      constructor
      · intro h
        simp [pyTupleLt] at h
      · intro h
        exact absurd h (List.Lex.not_nil_right _ _)
    | cons b l2 =>
      by_cases hab : a < b
      · constructor
        · intro _
          exact List.Lex.rel hab
        · intro _
          simp [pyTupleLt, hab]
      · by_cases hba : b < a
        · constructor
          · intro h
            simp [pyTupleLt, hab, hba] at h
          · intro h
            cases h with
            | cons h2 => exact absurd hba (lt_irrefl a)
            | rel h2 => exact absurd h2 hab
        · have heq : a = b := le_antisymm (not_lt.mp hba) (not_lt.mp hab)
          subst heq
          simp only [pyTupleLt, if_neg hab, if_neg hba, ih l2]
          constructor
          · exact fun h => List.Lex.cons h
          · intro h
            cases h with
            | cons h => exact h
            | rel h => exact absurd h hab

theorem pyTupleLt_eq_of_not (l1 : List Int) :
    ∀ l2, pyTupleLt l1 l2 = false → pyTupleLt l2 l1 = false → l1 = l2 := by
  induction l1 with
  | nil =>
    intro l2 h1 _
    cases l2 with
    | nil => rfl
    | cons b l2 => simp [pyTupleLt] at h1
  | cons a l1 ih =>
    intro l2 h1 h2
    cases l2 with
    | nil => simp [pyTupleLt] at h2
    | cons b l2 =>
      by_cases hab : a < b
      · simp [pyTupleLt, hab] at h1
      · by_cases hba : b < a
        · simp [pyTupleLt, hba] at h2
        · have heq : a = b := le_antisymm (not_lt.mp hba) (not_lt.mp hab)
          subst heq
          simp only [pyTupleLt, if_neg hab, if_neg hba] at h1 h2
          rw [ih l2 h1 h2]

/-- C5: for all version strings, compare_versions returns -1, 0, or 1
according to the standard lexicographic list order (List.Lex under <) on
the parse_version images; the parse pipeline trims whitespace, strips one
leading case-insensitive v, drops dash/plus suffixes not at position 0,
and keeps the leading integer segments or defaults to (0,), as the
representative evaluations show; in particular
compare_versions "1.2" "1.2.0" = -1. -/
theorem compare_versions_lex_order :
    (∀ v1 v2 : String,
      (compare_versions v1 v2 = -1
        ↔ List.Lex (· < ·) (parse_version v1) (parse_version v2)) ∧
      (compare_versions v1 v2 = 1
        ↔ List.Lex (· < ·) (parse_version v2) (parse_version v1)) ∧
      (compare_versions v1 v2 = 0 ↔ parse_version v1 = parse_version v2) ∧
      (compare_versions v1 v2 = -1 ∨ compare_versions v1 v2 = 0
        ∨ compare_versions v1 v2 = 1)) ∧
    parse_version " v1.2.3-beta+001 " = [1, 2, 3] ∧
    parse_version "nonsense" = [0] ∧
    parse_version "" = [0] ∧
    compare_versions "1.2" "1.2.0" = -1 := by
  refine ⟨?_, by decide, by decide, by decide, by decide⟩
  intro v1 v2
  unfold compare_versions
  by_cases h12 : pyTupleLt (parse_version v1) (parse_version v2) = true
  · rw [if_pos h12]
    have hlex := (pyTupleLt_iff_lex _ _).mp h12
    have hnot : ¬ List.Lex (· < ·) (parse_version v2) (parse_version v1) :=
      asymm hlex
    have hne : parse_version v1 ≠ parse_version v2 := by
      intro he
      rw [he] at hlex
      exact absurd hlex (asymm hlex)
    exact ⟨⟨fun _ => hlex, fun _ => rfl⟩,
      ⟨fun h => absurd h (by decide), fun h => absurd h hnot⟩,
      ⟨fun h => absurd h (by decide), fun h => absurd h hne⟩,
      Or.inl rfl⟩
  · rw [if_neg h12]
    by_cases h21 : pyTupleLt (parse_version v2) (parse_version v1) = true
    · rw [if_pos h21]
      have hlex := (pyTupleLt_iff_lex _ _).mp h21
      have hnot : ¬ List.Lex (· < ·) (parse_version v1) (parse_version v2) :=
        asymm hlex
      have hne : parse_version v1 ≠ parse_version v2 := by
        intro he
        rw [he] at hlex
        exact absurd hlex (asymm hlex)
      exact ⟨⟨fun h => absurd h (by decide), fun h => absurd h hnot⟩,
        ⟨fun _ => hlex, fun _ => rfl⟩,
        ⟨fun h => absurd h (by decide), fun h => absurd h hne⟩,
        Or.inr (Or.inr rfl)⟩
    · rw [if_neg h21]
      have heq : parse_version v1 = parse_version v2 :=
        pyTupleLt_eq_of_not _ _ (by simpa using h12) (by simpa using h21)
      have hnot : ¬ List.Lex (· < ·) (parse_version v1) (parse_version v2) := by
        intro h
        exact h12 ((pyTupleLt_iff_lex _ _).mpr h)
      have hnot2 : ¬ List.Lex (· < ·) (parse_version v2) (parse_version v1) := by
        intro h
        exact h21 ((pyTupleLt_iff_lex _ _).mpr h)
      exact ⟨⟨fun h => absurd h (by decide), fun h => absurd h hnot⟩,
        ⟨fun h => absurd h (by decide), fun h => absurd h hnot2⟩,
        ⟨fun _ => heq, fun _ => rfl⟩,
        Or.inr (Or.inl rfl)⟩

/-- C4 counterexample: blankInstalledApp is not ignored, both of its
version fields are present (installed is the empty string), and the
numeric comparison puts installed strictly below latest, yet
is_update_available is false — refuting the claim that presence of both
fields always routes to the compare_versions test. -/
theorem update_available_claim_fails_on_blank_field :
    blankInstalledApp.ignored = false ∧
    blankInstalledApp.installed_version ≠ none ∧
    blankInstalledApp.latest_version ≠ none ∧
    compare_versions "" "1" < 0 ∧
    is_update_available blankInstalledApp = false := by
  decide

/-- C4 (amended): is_update_available returns false when the app is
ignored, false when either version field is absent OR empty (Python
falsiness), and otherwise true exactly when
compare_versions(installed, latest) < 0 — the numeric-tuple comparison,
distinct from the string-inequality status derivation; in particular
installed "1.2" with latest "1.2.0" yields true. -/
theorem update_available_eq_spec :
    (∀ a : App, is_update_available a = updateAvailableSpec a) ∧
    is_update_available prefixVersionApp = true := by
  constructor
  · intro a
    obtain ⟨id, name, source, iv, lv, ign, lc, le, ru, aa, wi, gr, cu, vr, hf⟩ := a
    cases ign with
    | true => simp [is_update_available, updateAvailableSpec]
    | false =>
      cases iv with
      | none => cases lv <;> simp [is_update_available, updateAvailableSpec]
      | some s1 =>
        cases lv with
        | none => simp [is_update_available, updateAvailableSpec]
        | some s2 =>
          by_cases h1 : s1 = "" <;> by_cases h2 : s2 = "" <;>
            simp [is_update_available, updateAvailableSpec, h1, h2]
  · decide

theorem load_apps_loop (fuel : Nat) :
    ∀ tp : Option FileData,
      (load_apps true fuel
        { primary := some .malformed, backup := some .malformed,
          temp := tp }).1 = LoadOutcome.noReturn ∧
      (load_apps true fuel
        { primary := some .malformed, backup := some .malformed,
          temp := tp }).2.2 = fuel := by
  induction fuel with
  | zero => intro tp; exact ⟨rfl, rfl⟩
  | succ n ih =>
    intro tp
    have h := ih tp
    constructor <;> simp [load_apps, restoreBackup, h.1, h.2]

/-- C1 counterexample: with a malformed primary file AND a malformed
backup file, load_apps does not attempt exactly one automatic recovery —
within a recursion allowance of 5 it performs 5 restore attempts and
still never returns (the source recursion restores and retries without
bound) — refuting the claim that a malformed primary file always leads to
exactly one recovery attempt. -/
theorem load_apps_not_single_recovery :
    (load_apps true 5 corruptBothState).1 = LoadOutcome.noReturn ∧
    (load_apps true 5 corruptBothState).2.2 = 5 ∧
    (load_apps true 5 corruptBothState).2.2 ≠ 1 := by
  decide

/-- C1 (amended): load_apps returns the empty list when the primary file
is absent, and the parsed app list when the primary file is well formed;
on malformed JSON it copies the backup over the primary and retries —
exactly one recovery when the backup parses, returning the backup's list
with the primary restored, without raising; it raises the fatal
data-corruption error naming the apps-file path when no backup exists or
when the restore itself fails; but when a backup exists and is itself
malformed, every restore succeeds and the load retries without bound,
never returning (one restore attempt per unit of recursion allowance). -/
theorem load_apps_recovery (copyOk : Bool) (fuel : Nat)
    (bk tp : Option FileData) (b : FileData) (l : List App)
    (lu : Option String) :
    load_apps copyOk (fuel + 1) { primary := none, backup := bk, temp := tp }
      = (.ok [], { primary := none, backup := bk, temp := tp }, 0) ∧
    load_apps copyOk (fuel + 1)
        { primary := some (.wellFormed l lu), backup := bk, temp := tp }
      = (.ok l, { primary := some (.wellFormed l lu), backup := bk,
                  temp := tp }, 0) ∧
    load_apps true (fuel + 2)
        { primary := some .malformed, backup := some (.wellFormed l lu),
          temp := tp }
      = (.ok l, { primary := some (.wellFormed l lu),
                  backup := some (.wellFormed l lu), temp := tp }, 1) ∧
    load_apps copyOk (fuel + 1)
        { primary := some .malformed, backup := none, temp := tp }
      = (.corruptionError appsFilePath,
         { primary := some .malformed, backup := none, temp := tp }, 1) ∧
    load_apps false (fuel + 1)
        { primary := some .malformed, backup := some b, temp := tp }
      = (.corruptionError appsFilePath,
         { primary := some .malformed, backup := some b, temp := tp }, 1) ∧
    (load_apps true fuel
        { primary := some .malformed, backup := some .malformed,
          temp := tp }).1 = .noReturn ∧
    (load_apps true fuel
        { primary := some .malformed, backup := some .malformed,
          temp := tp }).2.2 = fuel := by
  refine ⟨rfl, rfl, ?_, rfl, rfl,
    (load_apps_loop fuel tp).1, (load_apps_loop fuel tp).2⟩
  simp [load_apps, restoreBackup]

theorem countP_filter_not {α : Type} (p : α → Bool) (l : List α) :
    (l.filter (fun e => !p e)).countP p = 0 := by
  induction l with
  | nil => rfl
  | cons a l ih =>
    by_cases h : p a <;> simp [List.filter_cons, List.countP_cons, h, ih]

theorem any_filter_not_self {α : Type} (p : α → Bool) (l : List α) :
    (l.filter (fun e => !p e)).any p = false := by
  induction l with
  | nil => rfl
  | cons a l ih =>
    by_cases h : p a <;> simp [List.filter_cons, h, ih]

theorem countP_eq_zero_of_any_eq_false {α : Type} (p : α → Bool)
    (l : List α) (h : l.any p = false) : l.countP p = 0 := by
  induction l with
  | nil => rfl
  | cons a l ih =>
    simp only [List.any_cons, Bool.or_eq_false_iff] at h
    simp [List.countP_cons, h.1, ih h.2]

/-- C8: add_app never creates a duplicate id: when an entry with the
app's id is already stored the list is returned unchanged (no-op); when
no such entry is stored the app is appended; adding two apps sharing one
id onto a list holding no entry with that id leaves exactly one stored
entry with that id; and a single add_app call never raises any id's
multiplicity beyond max(previous multiplicity, 1), so a duplicate-free
store stays duplicate-free. -/
theorem add_app_no_duplicate_id :
    (∀ (apps1 apps2 : List App) (e a : App),
      add_app (apps1 ++ { e with id := a.id } :: apps2) a
        = apps1 ++ { e with id := a.id } :: apps2) ∧
    (∀ (apps : List App) (a : App),
      add_app (apps.filter (fun e => !decide (e.id = a.id))) a
        = apps.filter (fun e => !decide (e.id = a.id)) ++ [a]) ∧
    (∀ (apps : List App) (a b : App),
      (add_app (add_app (apps.filter (fun e => !decide (e.id = a.id))) a)
          { b with id := a.id }).countP (fun e => decide (e.id = a.id))
        = 1) ∧
    (∀ (apps : List App) (a : App) (x : String),
      (add_app apps a).countP (fun e => decide (e.id = x))
        ≤ max (apps.countP (fun e => decide (e.id = x))) 1) := by
  have hdup : ∀ (apps1 apps2 : List App) (e a : App),
      add_app (apps1 ++ { e with id := a.id } :: apps2) a
        = apps1 ++ { e with id := a.id } :: apps2 := by
    intro apps1 apps2 e a
    have h : (apps1 ++ { e with id := a.id } :: apps2).any
        (fun x => decide (x.id = a.id)) = true := by
      simp [List.any_append, List.any_cons]
    simp [add_app, h]
  have hfresh : ∀ (apps : List App) (a : App),
      add_app (apps.filter (fun e => !decide (e.id = a.id))) a
        = apps.filter (fun e => !decide (e.id = a.id)) ++ [a] := by
    intro apps a
    have h := any_filter_not_self (fun e => decide (e.id = a.id)) apps
    simp [add_app, h]
  refine ⟨hdup, hfresh, ?_, ?_⟩
  · intro apps a b
    rw [hfresh apps a]
    have hany : (apps.filter (fun e => !decide (e.id = a.id)) ++ [a]).any
        (fun e => decide (e.id = ({ b with id := a.id } : App).id))
          = true := by
      simp [List.any_append, List.any_cons]
    simp [add_app, hany, List.countP_append, List.countP_cons,
      countP_filter_not (fun e : App => decide (e.id = a.id))]
  · intro apps a x
    by_cases h : apps.any (fun e => decide (e.id = a.id)) = true
    · simp [add_app, h]
    · have hf : apps.any (fun e => decide (e.id = a.id)) = false := by
        simpa using h
      simp only [add_app, hf, Bool.false_eq_true, if_false,
        List.countP_append, List.countP_cons]
      by_cases hx : a.id = x
      · have h0 : apps.countP (fun e => decide (e.id = x)) = 0 := by
          rw [← hx]
          exact countP_eq_zero_of_any_eq_false _ _ hf
        simp [h0, hx]
      · simp [hx]

theorem getStr_vStr (s : String) : getStr (.vStr s) = some s := rfl

theorem getBool_vBool (b d : Bool) : getBool (.vBool b) d = b := rfl

/-- C9: every App built by the public constructor — whose post-init step
fills a blank id with a non-empty fresh uuid string and an absent
added_at with the current time — round-trips through to_dict and
from_dict to an equal App across all 15 fields, whatever fresh values the
reconstruction side would have used. -/
theorem to_dict_from_dict_roundtrip
    (freshId now freshId2 now2 id name : String) (source : AppSource)
    (iv lv : Option String) (ign : Bool)
    (lc le ru aa wi gr cu vr hf : Option String)
    (h : freshId ≠ "") :
    App.from_dict freshId2 now2
        (App.to_dict (App.init freshId now id name source iv lv ign
          lc le ru aa wi gr cu vr hf))
      = App.init freshId now id name source iv lv ign lc le ru aa wi gr
          cu vr hf := by
  cases aa <;> by_cases hid : id = "" <;> by_cases hname : name = "" <;>
    simp [App.init, App.from_dict, App.to_dict, getStr_vStr, getBool_vBool,
      pyOrStr, getStr_ofOptStr, fromValue_value, hid, hname, h]

/-- Witness for the C9 round-trip theorem at concrete field values,
including a blank id filled by the constructor. -/
theorem to_dict_from_dict_roundtrip_witness :
    ("uuid-1" ≠ "") ∧
    App.from_dict "uuid-2" "2024-02-02"
        (App.to_dict (App.init "uuid-1" "2024-01-01" "" "Tool" .github
          (some "1.0") none false none none none none none
          (some "acme/tool") none none none))
      = App.init "uuid-1" "2024-01-01" "" "Tool" .github
          (some "1.0") none false none none none none none
          (some "acme/tool") none none none :=
  ⟨by decide,
   to_dict_from_dict_roundtrip "uuid-1" "2024-01-01" "uuid-2" "2024-02-02"
     "" "Tool" .github (some "1.0") none false none none none none none
     (some "acme/tool") none none none (by decide)⟩

end AppChecker
